import Mathlib

/-!
# Python bindings of the FDMT engine (`src/dmt_python.cpp`)

A shallow embedding of the pybind11 module `libdmt`: the two array helpers
`as_pyarray` / `as_pyarray_ref`, the constructor binding, the accessors
`dt_grid_final` and `dt_grid_sub_top`, and the two compute bindings `execute`
and `initialise`.

Conventions of the embedding.

* A numpy array is a shape together with its C-contiguous element buffer.
* A raw pointer (`const float*`, `float*`) is the function `i ↦ p[i]`; it
  carries no length.  Reading a buffer past its end is undefined in C++; the
  embedding reads `default` there.
* What a routine writes through an output pointer is a list of stores
  `(index, value)` in program order.
* `float` is an arbitrary carrier with `0` and `+`; the only arithmetic law used
  anywhere is `0 + 0 = 0`.
* `size_t` / `ssize_t` values are natural numbers: every count below is the
  element count of an array that exists.
* The core class `FDMTCPU` (header `dmt/fdmt_cpu.hpp`) is not part of the
  sources; its routines are either parameters of the bindings or modelled from
  the specification, and are marked as such.
-/

namespace Dmt

/-! ## Data model -/

/-- Failure kinds of the engine. -/
inductive Error where
  | ShapeMismatch
  | UninitializedPlan
deriving DecidableEq, Repr

/-- Outcome of a binding call: a raised error or the returned value. -/
inductive Result (β : Type) where
  | raised (e : Error)
  | returned (v : β)
deriving DecidableEq, Repr

/-- Raw pointer: `p i` is what `p[i]` reads. -/
abbrev Ptr (α : Type) := Nat → α

/-- Stores made through an output pointer, in program order. -/
abbrev Stores (α : Type) := List (Nat × α)

/-- Memory after a list of stores has been carried out on `mem`. -/
def Stores.apply {α : Type} (s : Stores α) (mem : Ptr α) : Ptr α :=
  s.foldl (fun m st => Function.update m st.1 st.2) mem

/-- Indices a list of stores writes to. -/
def Stores.addrs {α : Type} (s : Stores α) : List Nat := s.map Prod.fst

/-- A `py::array_t<T, c_style>`: shape and contiguous element buffer. -/
structure PyArray (α : Type) where
  shape : List Nat
  data : List α
deriving DecidableEq, Repr

/-- Element count `arr.size()`: the product of the dimensions. -/
def PyArray.size {α : Type} (a : PyArray α) : Nat := a.shape.prod

/-- Pointer `arr.data()` to the first element of the buffer. -/
def PyArray.data_ptr {α : Type} [Inhabited α] (a : PyArray α) : Ptr α :=
  fun i => a.data.getD i default

/-- Pointer `seq.data()` of a `std::vector`. -/
def vector_data {β : Type} [Inhabited β] (seq : List β) : Ptr β :=
  fun i => seq.getD i default

/-- One-dimensional array `py::array_t<T>(count, ptr)` of `count` elements
read from `ptr`. -/
def py_array {β : Type} (count : Nat) (ptr : Ptr β) : PyArray β :=
  { shape := [count], data := (List.range count).map ptr }

/-- A freshly allocated `py::array_t<float>(shape)`: its elements are whatever
the allocation holds (`uninit`); `mutable_data()` of it is `uninit` itself. -/
def py_array_alloc {α : Type} (shape : List Nat) (uninit : Ptr α) : PyArray α :=
  { shape := shape, data := (List.range shape.prod).map uninit }

/-- The array object once a routine has written `stores` through its
`mutable_data()` pointer, whose memory held `mem` before. -/
def py_array_written {α : Type} (shape : List Nat) (mem : Ptr α) (stores : Stores α) :
    PyArray α :=
  { shape := shape, data := (List.range shape.prod).map (stores.apply mem) }

/-- The call `std::fill(p, p + n, v)`. -/
def fill {α : Type} (mem : Ptr α) (n : Nat) (v : α) : Ptr α :=
  fun i => if i < n then v else mem i

/-- Struct `FDMTCoordMapping`, with the three fields the module exposes (lines 34-37). -/
structure FDMTCoordMapping where
  head : Nat
  tail : Nat
  offset : Nat
deriving DecidableEq, Repr

/-- Struct `FDMTPlan`, with the integer-valued fields the module exposes (lines 39-59).
The two floating-point tables `df_top` and `df_bot` play no role below.  Each
field has one entry per iteration; `mappings[i][j]` is the destination row of
`coordinates[i][j]`, and likewise for the entries to copy. -/
structure FDMTPlan where
  state_shape : List (List Nat)
  coordinates : List (List FDMTCoordMapping)
  coordinates_to_copy : List (List FDMTCoordMapping)
  mappings : List (List Nat)
  mappings_to_copy : List (List Nat)
  state_sub_idx : List (List Nat)
  dt_grid : List (List (List Nat))
  dt_grid_sub_top : List (List Nat)
deriving DecidableEq, Repr

/-- The engine `FDMTCPU` as seen through its getters (lines 67-76) and the
instrument sizes it was constructed with. -/
structure FDMTCPU where
  nchans : Nat
  nsamps : Nat
  niters : Nat
  dt_grid_final : List Nat
  plan : FDMTPlan
deriving DecidableEq, Repr

/-! ## Array helpers and accessors (lines 11-30, 49-58, 71-73) -/

/-- Helper `as_pyarray(seq)`: takes `size` and `data` of the sequence, moves the
sequence into a capsule that keeps the buffer alive, and returns the array
`py::array(size, data, capsule)` over that buffer. -/
def as_pyarray {β : Type} [Inhabited β] (seq : List β) : PyArray β :=
  let size := seq.length
  let data := vector_data seq
  py_array size data

/-- Helper `as_pyarray_ref(seq)`: `py::array_t<T>(size, data)`, a copy of the buffer. -/
def as_pyarray_ref {β : Type} [Inhabited β] (seq : List β) : PyArray β :=
  let size := seq.length
  let data := vector_data seq
  py_array size data

/-- The `dt_grid_sub_top` property of `FDMTPlan`: a Python list to which one
array per inner vector is appended. -/
def FDMTPlan.py_dt_grid_sub_top (plan : FDMTPlan) : List (PyArray Nat) :=
  plan.dt_grid_sub_top.foldl (fun res_list inner_vec => res_list ++ [as_pyarray inner_vec]) []

/-- The `dt_grid_final` property of `FDMT`. -/
def FDMTCPU.py_dt_grid_final (fdmt : FDMTCPU) : PyArray Nat :=
  as_pyarray_ref fdmt.dt_grid_final

/-! ## Constructor binding (lines 61-66) -/

/-- A Python argument value: a float or a non-negative integer. -/
inductive PyVal (F : Type) where
  | float (x : F)
  | int (n : Nat)

/-- A declared argument `py::arg(name)` or `py::arg(name) = default`. -/
structure PyArg (F : Type) where
  name : String
  dflt : Option (PyVal F)

/-- The argument list of `FDMT.__init__`. -/
def FDMT_init_args (F : Type) : List (PyArg F) :=
  [⟨"f_min", none⟩, ⟨"f_max", none⟩, ⟨"nchans", none⟩, ⟨"nsamps", none⟩,
   ⟨"tsamp", none⟩, ⟨"dt_max", none⟩, ⟨"dt_step", some (.int 1)⟩, ⟨"dt_min", some (.int 0)⟩]

/-- Positional argument binding: the i-th value given goes to the i-th declared
argument, a missing trailing argument takes its default, and the call is
rejected when a value is missing without default or too many are given.
Passing by keyword and the implicit conversion of a Python integer to `float`
are left out. -/
def bind_args {F : Type} : List (PyArg F) → List (PyVal F) → Option (List (PyVal F))
  | [], [] => some []
  | [], _ :: _ => none
  | p :: ps, [] =>
    match p.dflt with
    | some v => (bind_args ps []).map (fun vs => v :: vs)
    | none => none
  | _ :: ps, a :: rest => (bind_args ps rest).map (fun vs => a :: vs)

/-- Binding `py::init<float, float, size_t, size_t, float, size_t, size_t, size_t>()`:
the bound values are handed to the C++ constructor `ctor` in declaration
order. -/
def FDMT_init {F Eng : Type} (ctor : F → F → Nat → Nat → F → Nat → Nat → Nat → Eng)
    (args : List (PyVal F)) : Option Eng :=
  match bind_args (FDMT_init_args F) args with
  | some [.float f_min, .float f_max, .int nchans, .int nsamps, .float tsamp,
          .int dt_max, .int dt_step, .int dt_min] =>
    some (ctor f_min f_max nchans nsamps tsamp dt_max dt_step dt_min)
  | _ => none

/-! ## Compute bindings (lines 82-108) -/

/-- Second dimension `shape[1]` of the waterfall.  For an array of fewer than two dimensions the
C++ code reads past the shape table; the embedding reads 0 there. -/
def shape1 {α : Type} (waterfall : PyArray α) : Nat := waterfall.shape.getD 1 0

/-- Shape of the output array `dmt` that `execute` allocates (lines 86-89). -/
def execute_dmt_shape {α : Type} (fdmt : FDMTCPU) (waterfall : PyArray α) : List Nat :=
  let dt_final_size := fdmt.dt_grid_final.length
  [dt_final_size, shape1 waterfall]

/-- The two element counts `execute` hands to the core routine (lines 90-91):
`waterfall.size()` and `dmt.size()`. -/
def execute_counts {α : Type} (fdmt : FDMTCPU) (waterfall : PyArray α) : Nat × Nat :=
  (waterfall.size, (execute_dmt_shape fdmt waterfall).prod)

/-- The `execute` binding over a core routine
`core fdmt waterfall waterfall_size dmt dmt_size`: the output array is
allocated without being filled, the core routine is called on the two buffers
and their element counts, and the output array is returned unless the core
routine raised. -/
def execute_with {α : Type} [Inhabited α]
    (core : FDMTCPU → Ptr α → Nat → Ptr α → Nat → Result (Stores α))
    (fdmt : FDMTCPU) (waterfall : PyArray α) (uninit : Ptr α) : Result (PyArray α) :=
  let dmt_shape := execute_dmt_shape fdmt waterfall
  let dmt := py_array_alloc dmt_shape uninit
  match core fdmt waterfall.data_ptr waterfall.size uninit dmt.size with
  | .raised e => .raised e
  | .returned stores => .returned (py_array_written dmt_shape uninit stores)

/-- Shape of the state array that `initialise` allocates (lines 98-103). -/
def initialise_state_shape {α : Type} (fdmt : FDMTCPU) (waterfall : PyArray α) : List Nat :=
  let nchans_ndt := (fdmt.plan.state_shape.getD 0 []).getD 3 0
  [nchans_ndt, shape1 waterfall]

/-- The state buffer as `initialise` hands it to the core routine: freshly
allocated, then filled with `0.0F` over its whole size (lines 102-105). -/
def initialise_state_arg {α : Type} [Zero α] (fdmt : FDMTCPU) (waterfall : PyArray α)
    (uninit : Ptr α) : Ptr α :=
  let state := py_array_alloc (initialise_state_shape fdmt waterfall) uninit
  fill uninit state.size 0

/-- The `initialise` binding over a core routine `core fdmt waterfall state`:
only the two data pointers are passed (line 106). -/
def initialise_with {α : Type} [Inhabited α] [Zero α]
    (core : FDMTCPU → Ptr α → Ptr α → Result (Stores α))
    (fdmt : FDMTCPU) (waterfall : PyArray α) (uninit : Ptr α) : Result (PyArray α) :=
  let st_shape := initialise_state_shape fdmt waterfall
  let state := initialise_state_arg fdmt waterfall uninit
  match core fdmt waterfall.data_ptr state with
  | .raised e => .raised e
  | .returned stores => .returned (py_array_written st_shape state stores)

/-! ## Core routines of `FDMTCPU`

The class is declared in `dmt/fdmt_cpu.hpp`, which is not among the sources.
The routines below follow section 4.3 of the specification, with the
signatures of the two call sites (lines 90-91 and 106). -/

/-- Modelled from the spec: the dimension check of `FDMTCPU::execute` (absent
from the sources).  "Fails with `ShapeMismatch` (mismatched dimensions)": the
routine receives the two element counts only, and the expected ones are
`nchans * nsamps` for the waterfall and `len(dt_grid_final) * nsamps` for the
output. -/
def FDMTCPU.check_inputs (fdmt : FDMTCPU) (waterfall_size dmt_size : Nat) : Result Unit :=
  if waterfall_size ≠ fdmt.nchans * fdmt.nsamps then .raised .ShapeMismatch
  else if dmt_size ≠ fdmt.dt_grid_final.length * fdmt.nsamps then .raised .ShapeMismatch
  else .returned ()

/-- Modelled from the spec: one row of the iteration-0 state (routine absent
from the sources).  "`state0[c][d][t] = waterfall[c][t] + state0[c][d-1][t-1]`
(each successive larger delay reuses the previous delay's accumulated row
shifted by one more sample), with out-of-range time indices treated as zero
contribution"; `k` is the position of the delay in the channel's grid and the
first row is the channel itself. -/
def init_row {α : Type} [Zero α] [Add α] (waterfall : Ptr α) (nsamps c : Nat) : Nat → Nat → α
  | 0, t => waterfall (c * nsamps + t)
  | k + 1, t =>
    waterfall (c * nsamps + t) +
      (match t with
       | 0 => 0
       | t' + 1 => init_row waterfall nsamps c k t')

/-- Trial delays of channel `c` at iteration 0, `plan.dt_grid[0][c]`. -/
def FDMTCPU.dt_grid_init (fdmt : FDMTCPU) (c : Nat) : List Nat :=
  (fdmt.plan.dt_grid.getD 0 []).getD c []

/-- Element offset of channel `c` in the iteration-0 state buffer,
`plan.state_sub_idx[0][c]`. -/
def FDMTCPU.sub_idx_init (fdmt : FDMTCPU) (c : Nat) : Nat :=
  (fdmt.plan.state_sub_idx.getD 0 []).getD c 0

/-- Modelled from the spec: the stores of `FDMTCPU::initialise` (absent from the
sources): "for each original channel `c` and each trial delay `d` in
iteration-0's `dt_grid` for that channel" one row of `nsamps` samples, placed
at the channel's element offset `state_sub_idx[0][c]`. -/
def initialise_stores {α : Type} [Zero α] [Add α] (fdmt : FDMTCPU) (waterfall : Ptr α) :
    Stores α :=
  (List.range fdmt.nchans).flatMap fun c =>
    (List.range (fdmt.dt_grid_init c).length).flatMap fun k =>
      (List.range fdmt.nsamps).map fun t =>
        (fdmt.sub_idx_init c + k * fdmt.nsamps + t, init_row waterfall fdmt.nsamps c k t)

/-- Modelled from the spec: `FDMTCPU::initialise(waterfall, state)` (absent from
the sources), with the signature of the call at line 106.  The specification
lets it fail with `ShapeMismatch` when the waterfall's channel or sample count
disagrees with the engine's; the call passes two bare pointers, so no count of
the waterfall reaches the routine and there is nothing it could compare: it
reads `nchans * nsamps` samples from `waterfall` and writes the state rows. -/
def FDMTCPU.initialise {α : Type} [Zero α] [Add α] (fdmt : FDMTCPU) (waterfall : Ptr α)
    (_state : Ptr α) : Result (Stores α) :=
  .returned (initialise_stores fdmt waterfall)

/-- Modelled from the spec: a pure-copy entry (routine absent from the sources):
"copying the referenced previous-iteration row verbatim into the destination
row".  The row referenced is `head`; `dest` is the destination row. -/
def copy_stores {α : Type} (nsamps : Nat) (prev : Ptr α) (cm : FDMTCoordMapping) (dest : Nat) :
    Stores α :=
  (List.range nsamps).map fun t => (dest * nsamps + t, prev (cm.head * nsamps + t))

/-- Modelled from the spec: a combine entry (routine absent from the sources):
"`dest[t] = prev[head][t] + prev[tail][t − offset]` for all valid `t` (with the
shifted index zero-padded at the left boundary `t < offset`)". -/
def combine_stores {α : Type} [Zero α] [Add α] (nsamps : Nat) (prev : Ptr α)
    (cm : FDMTCoordMapping) (dest : Nat) : Stores α :=
  (List.range nsamps).map fun t =>
    (dest * nsamps + t,
      prev (cm.head * nsamps + t) +
        (if t < cm.offset then 0 else prev (cm.tail * nsamps + (t - cm.offset))))

/-- The pure-copy entries of iteration `i`, each with its destination row. -/
def FDMTPlan.copy_entries (plan : FDMTPlan) (i : Nat) : List (FDMTCoordMapping × Nat) :=
  (plan.coordinates_to_copy.getD i []).zip (plan.mappings_to_copy.getD i [])

/-- The combine entries of iteration `i`, each with its destination row. -/
def FDMTPlan.combine_entries (plan : FDMTPlan) (i : Nat) : List (FDMTCoordMapping × Nat) :=
  (plan.coordinates.getD i []).zip (plan.mappings.getD i [])

/-- Modelled from the spec: the stores of iteration `i` of `FDMTCPU::execute`
(absent from the sources): "(a) for every pure-copy CoordMapping ... (b) for
every combine CoordMapping ...", reading the previous iteration's buffer. -/
def iter_stores {α : Type} [Zero α] [Add α] (plan : FDMTPlan) (nsamps : Nat) (prev : Ptr α)
    (i : Nat) : Stores α :=
  (plan.copy_entries i).flatMap (fun e => copy_stores nsamps prev e.1 e.2) ++
    (plan.combine_entries i).flatMap (fun e => combine_stores nsamps prev e.1 e.2)

/-- Modelled from the spec: the state buffer after iteration `i` (routine absent
from the sources).  Iteration 0 is `initialise`; each later iteration "allocates
the next state buffer" and fills it from the previous one.  What a buffer holds
before it is filled is `scratch i`: nothing is assumed about it, be it fresh
memory or a buffer kept from an earlier execution. -/
def state_after {α : Type} [Zero α] [Add α] (fdmt : FDMTCPU) (scratch : Nat → Ptr α)
    (waterfall : Ptr α) : Nat → Ptr α
  | 0 => (initialise_stores fdmt waterfall).apply (scratch 0)
  | i + 1 =>
    (iter_stores fdmt.plan fdmt.nsamps (state_after fdmt scratch waterfall i) (i + 1)).apply
      (scratch (i + 1))

/-- Modelled from the spec: `FDMTCPU::execute(waterfall, waterfall_size, dmt,
dmt_size)` (absent from the sources), with the signature of the call at lines
90-91: the dimension check, then iterations `0..niters`, then "the single
remaining sub-band's state is the returned `dmt` array": the first `dmt_size`
elements of the final state are copied out.  `UninitializedPlan` does not
arise: the engine holds its plan from construction on. -/
def FDMTCPU.execute {α : Type} [Zero α] [Add α] (scratch : Nat → Ptr α) (fdmt : FDMTCPU)
    (waterfall : Ptr α) (waterfall_size : Nat) (_dmt : Ptr α) (dmt_size : Nat) :
    Result (Stores α) :=
  match fdmt.check_inputs waterfall_size dmt_size with
  | .raised e => .raised e
  | .returned _ =>
    .returned ((List.range dmt_size).map fun i =>
      (i, state_after fdmt scratch waterfall fdmt.niters i))

/-- The `execute` binding on the engine of the specification. -/
def execute {α : Type} [Inhabited α] [Zero α] [Add α] (scratch : Nat → Ptr α) (fdmt : FDMTCPU)
    (waterfall : PyArray α) (uninit : Ptr α) : Result (PyArray α) :=
  execute_with (FDMTCPU.execute scratch) fdmt waterfall uninit

/-- The `initialise` binding on the engine of the specification. -/
def initialise {α : Type} [Inhabited α] [Zero α] [Add α] (fdmt : FDMTCPU)
    (waterfall : PyArray α) (uninit : Ptr α) : Result (PyArray α) :=
  initialise_with FDMTCPU.initialise fdmt waterfall uninit

/-! ### Plans that read only what was written

The definitions of this section serve the two conditional results at the end of
the file. -/

/-- Indices written by `initialise`. -/
def init_addrs (fdmt : FDMTCPU) : List Nat :=
  (List.range fdmt.nchans).flatMap fun c =>
    (List.range (fdmt.dt_grid_init c).length).flatMap fun k =>
      (List.range fdmt.nsamps).map fun t => fdmt.sub_idx_init c + k * fdmt.nsamps + t

/-- Indices of one destination row. -/
def row_addrs (nsamps dest : Nat) : List Nat :=
  (List.range nsamps).map fun t => dest * nsamps + t

/-- Indices written by iteration `i`. -/
def iter_addrs (plan : FDMTPlan) (nsamps i : Nat) : List Nat :=
  (plan.copy_entries i).flatMap (fun e => row_addrs nsamps e.2) ++
    (plan.combine_entries i).flatMap (fun e => row_addrs nsamps e.2)

/-- Indices of the state buffer written at iteration `i`. -/
def written (fdmt : FDMTCPU) : Nat → List Nat
  | 0 => init_addrs fdmt
  | i + 1 => iter_addrs fdmt.plan fdmt.nsamps (i + 1)

/-- Indices of the previous buffer a pure-copy entry reads. -/
def copy_reads (nsamps : Nat) (cm : FDMTCoordMapping) : List Nat :=
  (List.range nsamps).map fun t => cm.head * nsamps + t

/-- Indices of the previous buffer a combine entry reads. -/
def combine_reads (nsamps : Nat) (cm : FDMTCoordMapping) : List Nat :=
  (List.range nsamps).flatMap fun t =>
    (cm.head * nsamps + t) ::
      (if t < cm.offset then [] else [cm.tail * nsamps + (t - cm.offset)])

/-- Indices of the previous buffer iteration `i` reads. -/
def iter_reads (plan : FDMTPlan) (nsamps i : Nat) : List Nat :=
  (plan.copy_entries i).flatMap (fun e => copy_reads nsamps e.1) ++
    (plan.combine_entries i).flatMap (fun e => combine_reads nsamps e.1)

/-- Read-after-write closure of an engine's plan: every iteration reads only
elements the previous iteration wrote, and the last iteration writes the whole
output, `len(dt_grid_final)` rows of `nsamps` samples.  Whether the plan of a
constructed engine has this property is decided by the plan builder, which is
not among the sources; it is a hypothesis wherever it is used. -/
def FDMTCPU.ReadsWritten (fdmt : FDMTCPU) : Prop :=
  (∀ i, i < fdmt.niters → ∀ a ∈ iter_reads fdmt.plan fdmt.nsamps (i + 1), a ∈ written fdmt i) ∧
  (∀ a, a < fdmt.dt_grid_final.length * fdmt.nsamps → a ∈ written fdmt fdmt.niters)

instance (fdmt : FDMTCPU) : Decidable fdmt.ReadsWritten := by
  unfold FDMTCPU.ReadsWritten; infer_instance

/-! ### A small engine used for concrete evaluations -/

/-- Plan of a two-channel engine: one merge, whose first output row is a pure
copy of row 0 and whose second row combines rows 1 and 2 with a shift of 1. -/
def plan2 : FDMTPlan :=
  { state_shape := [[2, 1, 2, 3, 4], [1, 1, 2, 2, 4]]
    coordinates := [[], [⟨1, 2, 1⟩]]
    coordinates_to_copy := [[], [⟨0, 0, 0⟩]]
    mappings := [[], [1]]
    mappings_to_copy := [[], [0]]
    state_sub_idx := [[0, 8], [0]]
    dt_grid := [[[0, 1], [0]], [[0, 1]]]
    dt_grid_sub_top := [[0, 1], [0, 1]] }

/-- Engine with 2 channels, 4 samples, 1 iteration and final grid `[0, 1]`. -/
def fdmt2 : FDMTCPU :=
  { nchans := 2, nsamps := 4, niters := 1, dt_grid_final := [0, 1], plan := plan2 }

/-! ## Helper lemmas -/

theorem range_map_getD {β : Type} (s : List β) (d : β) :
    (List.range s.length).map (fun i => s.getD i d) = s := by
  apply List.ext_getElem
  · simp
  · intro n h₁ h₂
    simp [List.getElem?_eq_getElem h₂]

theorem foldl_append_singleton_map {β γ : Type} (f : β → γ) (l : List β) (acc : List γ) :
    l.foldl (fun res x => res ++ [f x]) acc = acc ++ l.map f := by
  induction l generalizing acc with
  | nil => simp
  | cons x xs ih => simp [ih]

theorem as_pyarray_ref_eq {β : Type} [Inhabited β] (s : List β) :
    as_pyarray_ref s = ⟨[s.length], s⟩ := by
  simp only [as_pyarray_ref, py_array]
  rw [show vector_data s = fun i => s.getD i default from rfl, range_map_getD s default]

theorem as_pyarray_eq {β : Type} [Inhabited β] (s : List β) :
    as_pyarray s = ⟨[s.length], s⟩ := by
  simp only [as_pyarray, py_array]
  rw [show vector_data s = fun i => s.getD i default from rfl, range_map_getD s default]

theorem check_inputs_ok (fdmt : FDMTCPU) :
    fdmt.check_inputs (fdmt.nchans * fdmt.nsamps) (fdmt.dt_grid_final.length * fdmt.nsamps) =
      .returned () := by
  simp [FDMTCPU.check_inputs]

theorem counts_eq_iff (n m L r c : Nat) (hm : 0 < m) (hL : 0 < L) :
    (r * c = n * m ∧ L * c = L * m) ↔ (r = n ∧ c = m) := by
  constructor
  · rintro ⟨h₁, h₂⟩
    have hc : c = m := Nat.eq_of_mul_eq_mul_left hL h₂
    subst hc
    exact ⟨Nat.eq_of_mul_eq_mul_right hm h₁, rfl⟩
  · rintro ⟨rfl, rfl⟩
    exact ⟨rfl, rfl⟩

theorem apply_not_written {α : Type} (s : Stores α) (mem : Ptr α) (i : Nat)
    (h : i ∉ s.addrs) : s.apply mem i = mem i := by
  induction s generalizing mem with
  | nil => rfl
  | cons st rest ih =>
    simp only [Stores.addrs, List.map_cons, List.mem_cons, not_or] at h
    have hrest : i ∉ Stores.addrs rest := h.2
    show Stores.apply rest (Function.update mem st.1 st.2) i = mem i
    rw [ih _ hrest, Function.update_noteq h.1]

theorem apply_written_rel {α : Type} (P : Nat → α → Prop) (s : Stores α) (mem : Ptr α)
    (i : Nat) (hs : ∀ st ∈ s, P st.1 st.2) (h : i ∈ s.addrs ∨ P i (mem i)) :
    P i (s.apply mem i) := by
  induction s generalizing mem with
  | nil =>
    rcases h with h | h
    · simp [Stores.addrs] at h
    · exact h
  | cons st rest ih =>
    show P i (Stores.apply rest (Function.update mem st.1 st.2) i)
    apply ih _ (fun x hx => hs x (List.mem_cons_of_mem _ hx))
    by_cases hr : i ∈ Stores.addrs rest
    · exact Or.inl hr
    · right
      by_cases hi : i = st.1
      · subst hi
        rw [Function.update_same]
        exact hs st (List.mem_cons_self _ _)
      · rw [Function.update_noteq hi]
        rcases h with h | h
        · simp only [Stores.addrs, List.map_cons, List.mem_cons] at h
          rcases h with h | h
          · exact absurd h hi
          · exact absurd h hr
        · exact h

theorem apply_congr {α : Type} (s : Stores α) (m₁ m₂ : Ptr α) (i : Nat)
    (h : i ∈ s.addrs ∨ m₁ i = m₂ i) : s.apply m₁ i = s.apply m₂ i := by
  induction s generalizing m₁ m₂ with
  | nil =>
    rcases h with h | h
    · simp [Stores.addrs] at h
    · exact h
  | cons st rest ih =>
    show Stores.apply rest (Function.update m₁ st.1 st.2) i =
      Stores.apply rest (Function.update m₂ st.1 st.2) i
    apply ih
    by_cases hr : i ∈ Stores.addrs rest
    · exact Or.inl hr
    · right
      by_cases hi : i = st.1
      · subst hi
        rw [Function.update_same, Function.update_same]
      · rw [Function.update_noteq hi, Function.update_noteq hi]
        rcases h with h | h
        · simp only [Stores.addrs, List.map_cons, List.mem_cons] at h
          rcases h with h | h
          · exact absurd h hi
          · exact absurd h hr
        · exact h

theorem apply_range_stores {α : Type} (f : Nat → α) (n : Nat) (mem : Ptr α) (i : Nat)
    (hi : i < n) : Stores.apply ((List.range n).map fun j => (j, f j)) mem i = f i := by
  apply apply_written_rel (fun a v => v = f a)
  · intro st hst
    obtain ⟨j, _, rfl⟩ := List.mem_map.mp hst
    rfl
  · left
    simp only [Stores.addrs, List.map_map]
    exact List.mem_map.mpr ⟨i, List.mem_range.mpr hi, rfl⟩

theorem flatMap_congr_mem {β γ : Type} (l : List β) (f g : β → List γ)
    (h : ∀ x ∈ l, f x = g x) : l.flatMap f = l.flatMap g := by
  induction l with
  | nil => rfl
  | cons x xs ih =>
    simp only [List.flatMap_cons]
    rw [h x (List.mem_cons_self _ _), ih (fun y hy => h y (List.mem_cons_of_mem _ hy))]

theorem initialise_stores_addrs {α : Type} [Zero α] [Add α] (fdmt : FDMTCPU)
    (waterfall : Ptr α) : (initialise_stores fdmt waterfall).addrs = init_addrs fdmt := by
  simp only [Stores.addrs, initialise_stores, init_addrs, List.map_flatMap, List.map_map]
  rfl

theorem iter_stores_addrs {α : Type} [Zero α] [Add α] (plan : FDMTPlan) (nsamps : Nat)
    (prev : Ptr α) (i : Nat) :
    (iter_stores plan nsamps prev i).addrs = iter_addrs plan nsamps i := by
  simp only [Stores.addrs, iter_stores, iter_addrs, List.map_append, List.map_flatMap,
    copy_stores, combine_stores, row_addrs, List.map_map]
  rfl

theorem iter_stores_congr {α : Type} [Zero α] [Add α] (plan : FDMTPlan) (nsamps : Nat)
    (p₁ p₂ : Ptr α) (i : Nat) (h : ∀ a ∈ iter_reads plan nsamps i, p₁ a = p₂ a) :
    iter_stores plan nsamps p₁ i = iter_stores plan nsamps p₂ i := by
  unfold iter_stores
  congr 1
  · apply flatMap_congr_mem
    intro e he
    apply List.map_congr_left
    intro t ht
    have hr : e.1.head * nsamps + t ∈ iter_reads plan nsamps i := by
      apply List.mem_append_left
      exact List.mem_flatMap.mpr ⟨e, he, List.mem_map.mpr ⟨t, ht, rfl⟩⟩
    rw [h _ hr]
  · apply flatMap_congr_mem
    intro e he
    apply List.map_congr_left
    intro t ht
    have hin : ∀ a ∈ (e.1.head * nsamps + t) ::
        (if t < e.1.offset then [] else [e.1.tail * nsamps + (t - e.1.offset)]),
        a ∈ iter_reads plan nsamps i := by
      intro a ha
      apply List.mem_append_right
      exact List.mem_flatMap.mpr ⟨e, he, List.mem_flatMap.mpr ⟨t, ht, ha⟩⟩
    rw [h _ (hin _ (List.mem_cons_self _ _))]
    by_cases hlt : t < e.1.offset
    · simp only [if_pos hlt]
    · have hmem := hin (e.1.tail * nsamps + (t - e.1.offset)) (by simp [hlt])
      simp only [if_neg hlt]
      rw [h _ hmem]

theorem check_inputs_returned (fdmt : FDMTCPU) (ws ds : Nat) (u : Unit)
    (h : fdmt.check_inputs ws ds = .returned u) :
    ws = fdmt.nchans * fdmt.nsamps ∧ ds = fdmt.dt_grid_final.length * fdmt.nsamps := by
  unfold FDMTCPU.check_inputs at h
  by_cases h₁ : ws = fdmt.nchans * fdmt.nsamps
  · by_cases h₂ : ds = fdmt.dt_grid_final.length * fdmt.nsamps
    · exact ⟨h₁, h₂⟩
    · simp [h₁, h₂] at h
  · simp [h₁] at h

/-- Two runs over a read-after-write closed plan agree on every written element
of every state buffer, whatever the buffers held before. -/
theorem state_after_scratch {α : Type} [Zero α] [Add α] (fdmt : FDMTCPU)
    (s₁ s₂ : Nat → Ptr α) (w : Ptr α) (hb : fdmt.ReadsWritten) (i : Nat) (hi : i ≤ fdmt.niters) :
    ∀ a ∈ written fdmt i, state_after fdmt s₁ w i a = state_after fdmt s₂ w i a := by
  induction i with
  | zero =>
    intro a ha
    show Stores.apply (initialise_stores fdmt w) (s₁ 0) a =
      Stores.apply (initialise_stores fdmt w) (s₂ 0) a
    apply apply_congr
    left
    rw [initialise_stores_addrs]
    exact ha
  | succ i ih =>
    intro a ha
    have hreads : ∀ r ∈ iter_reads fdmt.plan fdmt.nsamps (i + 1),
        state_after fdmt s₁ w i r = state_after fdmt s₂ w i r :=
      fun r hr => ih (Nat.le_of_succ_le hi) r (hb.1 i hi r hr)
    show Stores.apply (iter_stores fdmt.plan fdmt.nsamps (state_after fdmt s₁ w i) (i + 1))
        (s₁ (i + 1)) a =
      Stores.apply (iter_stores fdmt.plan fdmt.nsamps (state_after fdmt s₂ w i) (i + 1))
        (s₂ (i + 1)) a
    rw [iter_stores_congr _ _ _ _ _ hreads]
    apply apply_congr
    left
    rw [iter_stores_addrs]
    exact ha

theorem data_ptr_zero {α : Type} [Inhabited α] [Zero α] (a : PyArray α)
    (hz : ∀ x ∈ a.data, x = 0) (i : Nat) (hi : i < a.data.length) : a.data_ptr i = 0 := by
  show a.data.getD i default = 0
  rw [List.getD_eq_getElem a.data default hi]
  exact hz _ (List.getElem_mem hi)

theorem init_row_zero {α : Type} [Zero α] [Add α] (h0 : (0 : α) + 0 = 0) (w : Ptr α)
    (nsamps c k : Nat) :
    ∀ t, (∀ u, u ≤ t → w (c * nsamps + u) = 0) → init_row w nsamps c k t = 0 := by
  induction k with
  | zero =>
    intro t hw
    exact hw t (Nat.le_refl t)
  | succ k ih =>
    intro t hw
    cases t with
    | zero =>
      show w (c * nsamps + 0) + 0 = 0
      rw [hw 0 (Nat.le_refl 0), h0]
    | succ t =>
      show w (c * nsamps + (t + 1)) + init_row w nsamps c k t = 0
      rw [hw (t + 1) (Nat.le_refl _), ih t (fun u hu => hw u (Nat.le_succ_of_le hu)), h0]

theorem initialise_stores_zero {α : Type} [Zero α] [Add α] (h0 : (0 : α) + 0 = 0)
    (fdmt : FDMTCPU) (w : Ptr α)
    (hw : ∀ c t, c < fdmt.nchans → t < fdmt.nsamps → w (c * fdmt.nsamps + t) = 0) :
    ∀ st ∈ initialise_stores fdmt w, st.2 = 0 := by
  intro st hst
  obtain ⟨c, hc, hst⟩ := List.mem_flatMap.mp hst
  obtain ⟨k, _, hst⟩ := List.mem_flatMap.mp hst
  obtain ⟨t, ht, rfl⟩ := List.mem_map.mp hst
  exact init_row_zero h0 w fdmt.nsamps c k t
    (fun u hu => hw c u (List.mem_range.mp hc) (Nat.lt_of_le_of_lt hu (List.mem_range.mp ht)))

theorem iter_stores_zero {α : Type} [Zero α] [Add α] (h0 : (0 : α) + 0 = 0)
    (plan : FDMTPlan) (nsamps i : Nat) :
    ∀ st ∈ iter_stores plan nsamps (fun _ => (0 : α)) i, st.2 = 0 := by
  intro st hst
  rcases List.mem_append.mp hst with h | h
  · obtain ⟨e, _, h⟩ := List.mem_flatMap.mp h
    obtain ⟨t, _, rfl⟩ := List.mem_map.mp h
    rfl
  · obtain ⟨e, _, h⟩ := List.mem_flatMap.mp h
    obtain ⟨t, _, rfl⟩ := List.mem_map.mp h
    show (0 : α) + (if t < e.1.offset then 0 else 0) = 0
    rw [ite_self, h0]

/-- Over a read-after-write closed plan, an all-zero waterfall leaves 0 in every
written element of every state buffer. -/
theorem state_after_zero {α : Type} [Zero α] [Add α] (h0 : (0 : α) + 0 = 0) (fdmt : FDMTCPU)
    (scratch : Nat → Ptr α) (w : Ptr α) (hb : fdmt.ReadsWritten)
    (hw : ∀ c t, c < fdmt.nchans → t < fdmt.nsamps → w (c * fdmt.nsamps + t) = 0)
    (i : Nat) (hi : i ≤ fdmt.niters) :
    ∀ a ∈ written fdmt i, state_after fdmt scratch w i a = 0 := by
  induction i with
  | zero =>
    intro a ha
    show Stores.apply (initialise_stores fdmt w) (scratch 0) a = 0
    apply apply_written_rel (fun _ v => v = 0) _ _ _ (initialise_stores_zero h0 fdmt w hw)
    left
    rw [initialise_stores_addrs]
    exact ha
  | succ i ih =>
    intro a ha
    have hreads : ∀ r ∈ iter_reads fdmt.plan fdmt.nsamps (i + 1),
        state_after fdmt scratch w i r = (fun _ => (0 : α)) r :=
      fun r hr => ih (Nat.le_of_succ_le hi) r (hb.1 i hi r hr)
    show Stores.apply (iter_stores fdmt.plan fdmt.nsamps (state_after fdmt scratch w i) (i + 1))
        (scratch (i + 1)) a = 0
    rw [iter_stores_congr _ _ _ _ _ hreads]
    apply apply_written_rel (fun _ v => v = 0) _ _ _ (iter_stores_zero h0 _ _ _)
    left
    rw [iter_stores_addrs]
    exact ha

/-- Whatever the core routine is, the `execute` binding uses the shape of the
waterfall through `shape[1]` and the element count only. -/
theorem execute_with_shape_blind {α : Type} [Inhabited α]
    (core : FDMTCPU → Ptr α → Nat → Ptr α → Nat → Result (Stores α)) (fdmt : FDMTCPU)
    (s₁ s₂ : List Nat) (data : List α) (uninit : Ptr α)
    (h₁ : s₁.getD 1 0 = s₂.getD 1 0) (h₂ : s₁.prod = s₂.prod) :
    execute_with core fdmt ⟨s₁, data⟩ uninit = execute_with core fdmt ⟨s₂, data⟩ uninit := by
  simp only [execute_with, execute_dmt_shape, shape1, PyArray.size, py_array_alloc, h₁, h₂]
  rfl

/-- Whatever the core routine is, the `initialise` binding uses the shape of
the waterfall through `shape[1]` only. -/
theorem initialise_with_shape_blind {α : Type} [Inhabited α] [Zero α]
    (core : FDMTCPU → Ptr α → Ptr α → Result (Stores α)) (fdmt : FDMTCPU)
    (s₁ s₂ : List Nat) (data : List α) (uninit : Ptr α)
    (h₁ : s₁.getD 1 0 = s₂.getD 1 0) :
    initialise_with core fdmt ⟨s₁, data⟩ uninit = initialise_with core fdmt ⟨s₂, data⟩ uninit := by
  simp only [initialise_with, initialise_state_shape, initialise_state_arg, shape1,
    PyArray.size, py_array_alloc, h₁]
  rfl

/-! ## Theorems -/

/-- C7: the constructor binding declares its arguments in the order (f_min,
f_max, nchans, nsamps, tsamp, dt_max, dt_step, dt_min), and a call with the
first six only constructs the same engine as the call that also gives
dt_step = 1 and dt_min = 0. -/
theorem init_defaults {F Eng : Type} (ctor : F → F → Nat → Nat → F → Nat → Nat → Nat → Eng)
    (f_min f_max : F) (nchans nsamps : Nat) (tsamp : F) (dt_max : Nat) :
    (FDMT_init_args F).map PyArg.name =
        ["f_min", "f_max", "nchans", "nsamps", "tsamp", "dt_max", "dt_step", "dt_min"] ∧
      FDMT_init ctor [.float f_min, .float f_max, .int nchans, .int nsamps, .float tsamp,
          .int dt_max] =
        some (ctor f_min f_max nchans nsamps tsamp dt_max 1 0) ∧
      FDMT_init ctor [.float f_min, .float f_max, .int nchans, .int nsamps, .float tsamp,
          .int dt_max] =
        FDMT_init ctor [.float f_min, .float f_max, .int nchans, .int nsamps, .float tsamp,
          .int dt_max, .int 1, .int 0] :=
  ⟨rfl, rfl, rfl⟩

/-- C8: `as_pyarray` and `as_pyarray_ref` return a one-dimensional array with
the length and the elements of the sequence, in order; `dt_grid_final` returns
the engine's final delay grid, and `dt_grid_sub_top` returns one such array per
inner sequence, in the outer order. -/
theorem as_pyarray_preserves :
    (∀ (β : Type) [Inhabited β] (s : List β),
        as_pyarray s = ⟨[s.length], s⟩ ∧ as_pyarray_ref s = ⟨[s.length], s⟩) ∧
      (∀ fdmt : FDMTCPU,
        fdmt.py_dt_grid_final = ⟨[fdmt.dt_grid_final.length], fdmt.dt_grid_final⟩) ∧
      (∀ plan : FDMTPlan,
        plan.py_dt_grid_sub_top.length = plan.dt_grid_sub_top.length ∧
          plan.py_dt_grid_sub_top = plan.dt_grid_sub_top.map (fun s => ⟨[s.length], s⟩)) := by
  have key : ∀ (β : Type) [Inhabited β] (s : List β),
      as_pyarray s = ⟨[s.length], s⟩ ∧ as_pyarray_ref s = ⟨[s.length], s⟩ := by
    intro β _ s
    exact ⟨as_pyarray_eq s, as_pyarray_ref_eq s⟩
  refine ⟨key, fun fdmt => (key Nat fdmt.dt_grid_final).2, fun plan => ?_⟩
  have h : plan.py_dt_grid_sub_top = plan.dt_grid_sub_top.map (fun s => ⟨[s.length], s⟩) := by
    simp only [FDMTPlan.py_dt_grid_sub_top, foldl_append_singleton_map, List.nil_append]
    exact List.map_congr_left (fun s _ => (key Nat s).1)
  exact ⟨by rw [h, List.length_map], h⟩

/-- C9: for an engine with nsamps ≥ 1 and a non-empty final grid, and a
waterfall of shape [r][c], the two counts the `execute` binding passes to the
core routine equal nchans*nsamps and len(dt_grid_final)*nsamps exactly when
r = nchans and c = nsamps. -/
theorem execute_counts_iff {α : Type} (fdmt : FDMTCPU) (r c : Nat) (data : List α)
    (hn : 0 < fdmt.nsamps) (hL : 0 < fdmt.dt_grid_final.length) :
    execute_counts fdmt ⟨[r, c], data⟩ =
        (fdmt.nchans * fdmt.nsamps, fdmt.dt_grid_final.length * fdmt.nsamps) ↔
      (r = fdmt.nchans ∧ c = fdmt.nsamps) := by
  simp only [execute_counts, execute_dmt_shape, shape1, PyArray.size, Prod.mk.injEq]
  simpa using counts_eq_iff fdmt.nchans fdmt.nsamps fdmt.dt_grid_final.length r c hn hL

/-- Instance of C9 on the two-channel engine and a waterfall of shape [2][4]. -/
theorem execute_counts_iff_witness :
    (0 < fdmt2.nsamps ∧ 0 < fdmt2.dt_grid_final.length) ∧
      (execute_counts fdmt2 (⟨[2, 4], [1, 2, 3, 4, 10, 20, 30, 40]⟩ : PyArray Int) =
          (fdmt2.nchans * fdmt2.nsamps, fdmt2.dt_grid_final.length * fdmt2.nsamps) ↔
        (2 = fdmt2.nchans ∧ 4 = fdmt2.nsamps)) :=
  ⟨by decide, execute_counts_iff fdmt2 2 4 _ (by decide) (by decide)⟩

/-- C1: on a waterfall of shape [nchans][nsamps] the `execute` binding returns
an array of shape [len(dt_grid_final)][nsamps], the first dimension being the
length of what the `dt_grid_final` accessor returns; the array holds that many
elements. -/
theorem execute_shape {α : Type} [Inhabited α] [Zero α] [Add α] (scratch : Nat → Ptr α)
    (fdmt : FDMTCPU) (waterfall : PyArray α) (uninit : Ptr α)
    (h : waterfall.shape = [fdmt.nchans, fdmt.nsamps]) :
    ∃ dmt, execute scratch fdmt waterfall uninit = .returned dmt ∧
      dmt.shape = [fdmt.py_dt_grid_final.data.length, fdmt.nsamps] ∧
      dmt.data.length = fdmt.py_dt_grid_final.data.length * fdmt.nsamps := by
  have hlen : fdmt.py_dt_grid_final.data.length = fdmt.dt_grid_final.length := by
    show (as_pyarray_ref fdmt.dt_grid_final).data.length = _
    rw [as_pyarray_ref_eq fdmt.dt_grid_final]
  have hshape : execute_dmt_shape fdmt waterfall = [fdmt.dt_grid_final.length, fdmt.nsamps] := by
    simp [execute_dmt_shape, shape1, h]
  have hw : waterfall.size = fdmt.nchans * fdmt.nsamps := by simp [PyArray.size, h]
  have hd : (py_array_alloc (execute_dmt_shape fdmt waterfall) uninit).size =
      fdmt.dt_grid_final.length * fdmt.nsamps := by
    simp [py_array_alloc, PyArray.size, hshape]
  refine ⟨py_array_written (execute_dmt_shape fdmt waterfall) uninit
    ((List.range (fdmt.dt_grid_final.length * fdmt.nsamps)).map fun i =>
      (i, state_after fdmt scratch waterfall.data_ptr fdmt.niters i)), ?_, ?_, ?_⟩
  · simp only [execute, execute_with, FDMTCPU.execute, hw, hd, check_inputs_ok]
  · simp [py_array_written, hshape, hlen]
  · simp [py_array_written, hshape, hlen]

/-- Instance of C1 on the two-channel engine. -/
theorem execute_shape_witness :
    (⟨[2, 4], [1, 2, 3, 4, 10, 20, 30, 40]⟩ : PyArray Int).shape = [fdmt2.nchans, fdmt2.nsamps] ∧
      ∃ dmt, execute (fun _ _ => 7) fdmt2 ⟨[2, 4], [1, 2, 3, 4, 10, 20, 30, 40]⟩ (fun _ => 9) =
          .returned dmt ∧
        dmt.shape = [fdmt2.py_dt_grid_final.data.length, fdmt2.nsamps] ∧
        dmt.data.length = fdmt2.py_dt_grid_final.data.length * fdmt2.nsamps :=
  ⟨rfl, execute_shape _ fdmt2 _ _ rfl⟩

/-- C2 (as amended): for an engine with nsamps ≥ 1 and a non-empty final grid,
`execute` on a two-dimensional waterfall whose shape [r][c] is not
[nchans][nsamps] raises ShapeMismatch, so no array is returned. -/
theorem execute_wrong_2d {α : Type} [Inhabited α] [Zero α] [Add α] (scratch : Nat → Ptr α)
    (fdmt : FDMTCPU) (r c : Nat) (data : List α) (uninit : Ptr α)
    (hn : 0 < fdmt.nsamps) (hL : 0 < fdmt.dt_grid_final.length)
    (hne : [r, c] ≠ [fdmt.nchans, fdmt.nsamps]) :
    execute scratch fdmt ⟨[r, c], data⟩ uninit = .raised .ShapeMismatch := by
  have hcounts : ¬ (r * c = fdmt.nchans * fdmt.nsamps ∧
      fdmt.dt_grid_final.length * c = fdmt.dt_grid_final.length * fdmt.nsamps) := by
    intro hc
    obtain ⟨h₁, h₂⟩ := (counts_eq_iff _ _ _ r c hn hL).mp hc
    exact hne (by rw [h₁, h₂])
  simp only [execute, execute_with, FDMTCPU.execute, FDMTCPU.check_inputs, py_array_alloc,
    execute_dmt_shape, shape1, PyArray.size, List.getD_cons_succ, List.getD_cons_zero,
    List.prod_cons, List.prod_nil, Nat.mul_one]
  by_cases h₁ : r * c = fdmt.nchans * fdmt.nsamps
  · have h₂ : fdmt.dt_grid_final.length * c ≠ fdmt.dt_grid_final.length * fdmt.nsamps :=
      fun h => hcounts ⟨h₁, h⟩
    simp [h₁, h₂]
  · simp [h₁]

/-- Instance of the amended C2: shape [4][2] on the engine with [nchans][nsamps] = [2][4]. -/
theorem execute_wrong_2d_witness :
    (0 < fdmt2.nsamps ∧ 0 < fdmt2.dt_grid_final.length ∧
        ([4, 2] : List Nat) ≠ [fdmt2.nchans, fdmt2.nsamps]) ∧
      execute (fun _ _ => (7 : Int)) fdmt2 ⟨[4, 2], [1, 2, 3, 4, 10, 20, 30, 40]⟩ (fun _ => 9) =
        .raised .ShapeMismatch :=
  ⟨by decide, execute_wrong_2d _ fdmt2 4 2 _ _ (by decide) (by decide) (by decide)⟩

/-- C2 (as stated) fails: a three-dimensional waterfall of shape [1][4][2] is
not of shape [nchans][nsamps] = [2][4], yet its element count is 8 and its
second dimension is 4, so `execute` raises nothing and returns an array. -/
theorem execute_accepts_3d :
    ([1, 4, 2] : List Nat) ≠ [fdmt2.nchans, fdmt2.nsamps] ∧
      execute (fun _ _ => (7 : Int)) fdmt2 ⟨[1, 4, 2], [1, 2, 3, 4, 10, 20, 30, 40]⟩
          (fun _ => 9) =
        .returned ⟨[2, 4], [1, 2, 3, 4, 1, 13, 25, 37]⟩ :=
  ⟨by decide, by decide⟩

/-- C3 (failing input): the engine has nchans = 2 and nsamps = 4; on a
waterfall of shape [3][4] the `initialise` binding raises nothing and returns
a state array, computed from the first two rows of the waterfall; and whatever
the core routine is, the call is the same as the call on the leading [2][4]
view of the same buffer, since only the data pointer and `shape[1]` are used. -/
theorem initialise_accepts_wrong_shape :
    ([3, 4] : List Nat) ≠ [fdmt2.nchans, fdmt2.nsamps] ∧
      initialise fdmt2 ⟨[3, 4], [1, 2, 3, 4, 10, 20, 30, 40, 5, 5, 5, 5]⟩ (fun _ => (9 : Int)) =
        .returned ⟨[3, 4], [1, 2, 3, 4, 1, 3, 5, 7, 10, 20, 30, 40]⟩ ∧
      ∀ core : FDMTCPU → Ptr Int → Ptr Int → Result (Stores Int),
        initialise_with core fdmt2 ⟨[3, 4], [1, 2, 3, 4, 10, 20, 30, 40, 5, 5, 5, 5]⟩
            (fun _ => 9) =
          initialise_with core fdmt2 ⟨[2, 4], [1, 2, 3, 4, 10, 20, 30, 40, 5, 5, 5, 5]⟩
            (fun _ => 9) :=
  ⟨by decide, by decide, fun _ => rfl⟩

/-- C4: on a waterfall of shape [nchans][nsamps] the `initialise` binding
returns an array of shape [R][nsamps] with R = plan.state_shape[0][3]; the
array holds R * nsamps elements. -/
theorem initialise_shape {α : Type} [Inhabited α] [Zero α] [Add α] (fdmt : FDMTCPU)
    (waterfall : PyArray α) (uninit : Ptr α)
    (h : waterfall.shape = [fdmt.nchans, fdmt.nsamps]) :
    ∃ state, initialise fdmt waterfall uninit = .returned state ∧
      state.shape = [(fdmt.plan.state_shape.getD 0 []).getD 3 0, fdmt.nsamps] ∧
      state.data.length = (fdmt.plan.state_shape.getD 0 []).getD 3 0 * fdmt.nsamps := by
  have hshape : initialise_state_shape fdmt waterfall =
      [(fdmt.plan.state_shape.getD 0 []).getD 3 0, fdmt.nsamps] := by
    simp [initialise_state_shape, shape1, h]
  refine ⟨_, rfl, ?_, ?_⟩
  · simp [py_array_written, hshape]
  · simp [py_array_written, hshape]

/-- Instance of C4 on the two-channel engine. -/
theorem initialise_shape_witness :
    (⟨[2, 4], [1, 2, 3, 4, 10, 20, 30, 40]⟩ : PyArray Int).shape = [fdmt2.nchans, fdmt2.nsamps] ∧
      ∃ state, initialise fdmt2 ⟨[2, 4], [1, 2, 3, 4, 10, 20, 30, 40]⟩ (fun _ => (9 : Int)) =
          .returned state ∧
        state.shape = [(fdmt2.plan.state_shape.getD 0 []).getD 3 0, fdmt2.nsamps] ∧
        state.data.length = (fdmt2.plan.state_shape.getD 0 []).getD 3 0 * fdmt2.nsamps :=
  ⟨rfl, initialise_shape fdmt2 _ _ rfl⟩

/-- C10: in the `initialise` binding the state buffer handed to the core
routine is 0 on all of its plan.state_shape[0][3] * shape[1] elements, and
every element of the returned array that the core routine did not store to is
0; the output array of `execute` is not pre-filled: an element the core
routine does not store to keeps whatever the allocation held. -/
theorem initialise_prefilled {α : Type} [Inhabited α] [Zero α]
    (core : FDMTCPU → Ptr α → Ptr α → Result (Stores α))
    (xcore : FDMTCPU → Ptr α → Nat → Ptr α → Nat → Result (Stores α))
    (fdmt : FDMTCPU) (waterfall : PyArray α) (uninit : Ptr α) (i : Nat)
    (hi : i < (fdmt.plan.state_shape.getD 0 []).getD 3 0 * shape1 waterfall) :
    initialise_state_arg fdmt waterfall uninit i = 0 ∧
      (∀ stores,
        core fdmt waterfall.data_ptr (initialise_state_arg fdmt waterfall uninit) =
            .returned stores →
          i ∉ stores.addrs →
          ∃ state, initialise_with core fdmt waterfall uninit = .returned state ∧
            state.shape = [(fdmt.plan.state_shape.getD 0 []).getD 3 0, shape1 waterfall] ∧
            state.data[i]? = some 0) ∧
      (∀ j stores, j < fdmt.dt_grid_final.length * shape1 waterfall →
        xcore fdmt waterfall.data_ptr waterfall.size uninit
            (fdmt.dt_grid_final.length * shape1 waterfall) = .returned stores →
          j ∉ stores.addrs →
          ∃ dmt, execute_with xcore fdmt waterfall uninit = .returned dmt ∧
            dmt.data[j]? = some (uninit j)) := by
  have hp : (initialise_state_shape fdmt waterfall).prod =
      (fdmt.plan.state_shape.getD 0 []).getD 3 0 * shape1 waterfall := by
    simp [initialise_state_shape]
  have hq : (execute_dmt_shape fdmt waterfall).prod =
      fdmt.dt_grid_final.length * shape1 waterfall := by
    simp [execute_dmt_shape]
  rw [← hp] at hi
  have hfill : initialise_state_arg fdmt waterfall uninit i = 0 := by
    simp only [initialise_state_arg, fill, py_array_alloc, PyArray.size]
    rw [if_pos hi]
  refine ⟨hfill, ?_, ?_⟩
  · intro stores hcore hnw
    refine ⟨py_array_written (initialise_state_shape fdmt waterfall)
      (initialise_state_arg fdmt waterfall uninit) stores,
      by simp only [initialise_with, hcore], rfl, ?_⟩
    simp only [py_array_written, List.getElem?_map, List.getElem?_range hi, Option.map_some']
    rw [apply_not_written _ _ _ hnw, hfill]
  · intro j stores hj hcore hnw
    rw [← hq] at hj hcore
    have hcore2 : xcore fdmt waterfall.data_ptr waterfall.size uninit
        (py_array_alloc (execute_dmt_shape fdmt waterfall) uninit).size = .returned stores := hcore
    refine ⟨py_array_written (execute_dmt_shape fdmt waterfall) uninit stores,
      by simp only [execute_with, hcore2], ?_⟩
    simp only [py_array_written, List.getElem?_map, List.getElem?_range hj, Option.map_some']
    rw [apply_not_written _ _ _ hnw]

/-- Instance of C10: a core routine that stores to element 0 only leaves
element 1 of the state array at 0, and element 1 of the output of `execute` at
the allocation's value 9. -/
theorem initialise_prefilled_witness :
    (1 < (fdmt2.plan.state_shape.getD 0 []).getD 3 0 *
        shape1 (⟨[2, 4], [1, 2, 3, 4, 10, 20, 30, 40]⟩ : PyArray Int)) ∧
      initialise_state_arg fdmt2 (⟨[2, 4], [1, 2, 3, 4, 10, 20, 30, 40]⟩ : PyArray Int)
        (fun _ => 9) 1 = 0 ∧
      (∃ state, initialise_with (fun _ _ _ => .returned [(0, 5)]) fdmt2
          (⟨[2, 4], [1, 2, 3, 4, 10, 20, 30, 40]⟩ : PyArray Int) (fun _ => 9) = .returned state ∧
        state.shape = [(fdmt2.plan.state_shape.getD 0 []).getD 3 0,
          shape1 (⟨[2, 4], [1, 2, 3, 4, 10, 20, 30, 40]⟩ : PyArray Int)] ∧
        state.data[1]? = some 0) ∧
      (∃ dmt, execute_with (fun _ _ _ _ _ => .returned [(0, 5)]) fdmt2
          (⟨[2, 4], [1, 2, 3, 4, 10, 20, 30, 40]⟩ : PyArray Int) (fun _ => 9) = .returned dmt ∧
        dmt.data[1]? = some 9) :=
  have T := initialise_prefilled (fun _ _ _ => .returned [(0, 5)])
    (fun _ _ _ _ _ => .returned [(0, 5)]) fdmt2
    (⟨[2, 4], [1, 2, 3, 4, 10, 20, 30, 40]⟩ : PyArray Int) (fun _ => 9) 1 (by decide)
  ⟨by decide, T.1, T.2.1 [(0, 5)] rfl (by decide), T.2.2 1 [(0, 5)] (by decide) rfl (by decide)⟩

/-! ## Conditional results on the modelled engine

Both results below assume `FDMTCPU.ReadsWritten`.  Without it they fail in the
model: an element of a state buffer that no entry writes keeps what the buffer
held before. -/

/-- Conditional determinism: if the plan is read-after-write closed, `execute`
returns the same result for the same waterfall whatever the freshly allocated
output buffer held and whatever the engine's state buffers held. -/
theorem execute_deterministic_of_closed {α : Type} [Inhabited α] [Zero α] [Add α]
    (scratch₁ scratch₂ : Nat → Ptr α) (uninit₁ uninit₂ : Ptr α) (fdmt : FDMTCPU)
    (waterfall : PyArray α) (hb : fdmt.ReadsWritten) :
    execute scratch₁ fdmt waterfall uninit₁ = execute scratch₂ fdmt waterfall uninit₂ := by
  simp only [execute, execute_with, FDMTCPU.execute]
  have hsz : ∀ u : Ptr α, (py_array_alloc (execute_dmt_shape fdmt waterfall) u).size =
      (execute_dmt_shape fdmt waterfall).prod := fun _ => rfl
  rw [hsz, hsz]
  cases hc : fdmt.check_inputs waterfall.size (execute_dmt_shape fdmt waterfall).prod with
  | raised e => rfl
  | returned u =>
    obtain ⟨_, hd⟩ := check_inputs_returned fdmt _ _ u hc
    simp only [py_array_written]
    congr 2
    apply List.map_congr_left
    intro i hi
    have hi2 : i < (execute_dmt_shape fdmt waterfall).prod := List.mem_range.mp hi
    rw [apply_range_stores _ _ _ _ hi2, apply_range_stores _ _ _ _ hi2]
    exact state_after_scratch fdmt scratch₁ scratch₂ _ hb fdmt.niters (Nat.le_refl _) i
      (hb.2 i (hd ▸ hi2))

/-- The conditional determinism result on the two-channel engine, with two
different prior contents of the output buffer and of the state buffers. -/
theorem execute_deterministic_of_closed_example :
    fdmt2.ReadsWritten ∧
      execute (fun _ _ => (7 : Int)) fdmt2 ⟨[2, 4], [1, 2, 3, 4, 10, 20, 30, 40]⟩ (fun _ => 9) =
        execute (fun i a => Int.ofNat (i + a)) fdmt2 ⟨[2, 4], [1, 2, 3, 4, 10, 20, 30, 40]⟩
          (fun a => Int.negSucc a) :=
  ⟨by decide, execute_deterministic_of_closed _ _ _ _ fdmt2 _ (by decide)⟩

/-- Conditional zero preservation: if the plan is read-after-write closed,
`execute` on a waterfall of shape [nchans][nsamps] whose elements are all 0
returns an array of shape [len(dt_grid_final)][nsamps] whose elements are all 0
(the carrier satisfies 0 + 0 = 0, as `float` does). -/
theorem execute_zeros_of_closed {α : Type} [Inhabited α] [Zero α] [Add α] (h0 : (0 : α) + 0 = 0)
    (scratch : Nat → Ptr α) (fdmt : FDMTCPU) (waterfall : PyArray α) (uninit : Ptr α)
    (hb : fdmt.ReadsWritten) (hshape : waterfall.shape = [fdmt.nchans, fdmt.nsamps])
    (hlen : waterfall.data.length = waterfall.size) (hz : ∀ x ∈ waterfall.data, x = 0) :
    ∃ dmt, execute scratch fdmt waterfall uninit = .returned dmt ∧
      dmt.shape = [fdmt.dt_grid_final.length, fdmt.nsamps] ∧
      dmt.data.length = fdmt.dt_grid_final.length * fdmt.nsamps ∧
      ∀ x ∈ dmt.data, x = 0 := by
  have hdshape : execute_dmt_shape fdmt waterfall = [fdmt.dt_grid_final.length, fdmt.nsamps] := by
    simp [execute_dmt_shape, shape1, hshape]
  have hwsz : waterfall.size = fdmt.nchans * fdmt.nsamps := by simp [PyArray.size, hshape]
  have hd : (py_array_alloc (execute_dmt_shape fdmt waterfall) uninit).size =
      fdmt.dt_grid_final.length * fdmt.nsamps := by
    simp [py_array_alloc, PyArray.size, hdshape]
  have hprod : (execute_dmt_shape fdmt waterfall).prod =
      fdmt.dt_grid_final.length * fdmt.nsamps := by simp [hdshape]
  have hw : ∀ c t, c < fdmt.nchans → t < fdmt.nsamps →
      waterfall.data_ptr (c * fdmt.nsamps + t) = 0 := by
    intro c t hc ht
    apply data_ptr_zero waterfall hz
    rw [hlen, hwsz]
    calc c * fdmt.nsamps + t < c * fdmt.nsamps + fdmt.nsamps := Nat.add_lt_add_left ht _
      _ = (c + 1) * fdmt.nsamps := (Nat.succ_mul c fdmt.nsamps).symm
      _ ≤ fdmt.nchans * fdmt.nsamps := Nat.mul_le_mul_right _ hc
  refine ⟨py_array_written (execute_dmt_shape fdmt waterfall) uninit
    ((List.range (fdmt.dt_grid_final.length * fdmt.nsamps)).map fun i =>
      (i, state_after fdmt scratch waterfall.data_ptr fdmt.niters i)), ?_, ?_, ?_, ?_⟩
  · simp only [execute, execute_with, FDMTCPU.execute, hwsz, hd, check_inputs_ok]
  · simp [py_array_written, hdshape]
  · simp [py_array_written, hdshape]
  · intro x hx
    simp only [py_array_written, hprod] at hx
    obtain ⟨i, hi, rfl⟩ := List.mem_map.mp hx
    have hi2 : i < fdmt.dt_grid_final.length * fdmt.nsamps := List.mem_range.mp hi
    rw [apply_range_stores _ _ _ _ hi2]
    exact state_after_zero h0 fdmt scratch _ hb hw fdmt.niters (Nat.le_refl _) i (hb.2 i hi2)

/-- The conditional zero preservation result on the two-channel engine, over
the integers. -/
theorem execute_zeros_of_closed_example :
    ((0 : Int) + 0 = 0 ∧ fdmt2.ReadsWritten ∧
        (⟨[2, 4], [0, 0, 0, 0, 0, 0, 0, 0]⟩ : PyArray Int).shape = [fdmt2.nchans, fdmt2.nsamps] ∧
        (⟨[2, 4], [0, 0, 0, 0, 0, 0, 0, 0]⟩ : PyArray Int).data.length =
          (⟨[2, 4], [0, 0, 0, 0, 0, 0, 0, 0]⟩ : PyArray Int).size ∧
        ∀ x ∈ (⟨[2, 4], [0, 0, 0, 0, 0, 0, 0, 0]⟩ : PyArray Int).data, x = 0) ∧
      ∃ dmt, execute (fun _ _ => 7) fdmt2 ⟨[2, 4], [0, 0, 0, 0, 0, 0, 0, 0]⟩ (fun _ => 9) =
          .returned dmt ∧
        dmt.shape = [fdmt2.dt_grid_final.length, fdmt2.nsamps] ∧
        dmt.data.length = fdmt2.dt_grid_final.length * fdmt2.nsamps ∧
        ∀ x ∈ dmt.data, x = 0 :=
  ⟨⟨rfl, by decide, rfl, rfl, by decide⟩,
    execute_zeros_of_closed rfl _ fdmt2 _ _ (by decide) rfl rfl (by decide)⟩

end Dmt
